import Mathlib

/-!
# TreeWalk: verification of the record store and HTTP API

Shallow embedding of `app.py` from the TreeWalk repository: a CSV-backed
store of tree observations with a small JSON HTTP surface and a static
file path resolver.  Files are modelled as character lists, the wall
clock as a rational-number parameter, and Python exceptions as an
explicit outcome.
-/

namespace TreeWalk

/-- Character-list view of file and string data. -/
abbrev Chars := List Char

/-- Convert a Lean string literal to its character list. -/
def chs (s : String) : Chars := s.toList

/-! ## CSV writing (`csv.writer`, default excel dialect)

`csv.writer` quotes a field iff it contains the delimiter `,`, the quote
character `"`, or a line-terminator character (`\r` or `\n`); quoting
doubles every embedded quote and wraps the field in quotes.  Records are
joined with `,` and terminated by `\r\n`. -/

/-- Does a field require quoting under QUOTE_MINIMAL? -/
def needsQuote : Chars → Bool
  | [] => false
  | c :: r => (c == ',' || c == '"' || c == '\n' || c == '\r') || needsQuote r

/-- Double every embedded quote character. -/
def escapeQuotes : Chars → Chars
  | [] => []
  | c :: r => if c = '"' then '"' :: '"' :: escapeQuotes r else c :: escapeQuotes r

/-- Serialize one field, quoting when needed. -/
def quoteField (f : Chars) : Chars :=
  if needsQuote f then '"' :: (escapeQuotes f ++ ['"']) else f

/-- Join the serialized fields of one record with commas (no terminator). -/
def joinFields : List Chars → Chars
  | [] => []
  | [f] => quoteField f
  | f :: fs => quoteField f ++ ',' :: joinFields fs

/-- Serialize one record: comma-joined quoted fields plus `\r\n`. -/
def writeRecord (fs : List Chars) : Chars := joinFields fs ++ ['\r', '\n']

/-- Serialize a list of records by concatenation. -/
def writeAll : List (List Chars) → Chars
  | [] => []
  | r :: rs => writeRecord r ++ writeAll rs

/-! ## CSV reading (`csv.reader`, default excel dialect) -/

/-- What terminated a field. -/
inductive Sep where
  | comma
  | eol
  | eof
deriving DecidableEq

/-- Consume the body of a quoted field after its opening quote: a doubled
quote stands for one literal quote, a lone quote closes the field. -/
def parseQuotedBody : Chars → Chars × Chars
  | [] => ([], [])
  | c :: rest =>
    if c = '"' then
      match rest with
      | [] => ([], [])
      | c2 :: rest2 =>
        if c2 = '"' then
          let p := parseQuotedBody rest2
          ('"' :: p.1, p.2)
        else ([], c2 :: rest2)
    else
      let p := parseQuotedBody rest
      (c :: p.1, p.2)

/-- Consume an unquoted stretch up to a comma or end of line/input;
`\r\n`, `\r` and `\n` all end a record. -/
def parseBare : Chars → Chars × Sep × Chars
  | [] => ([], Sep.eof, [])
  | c :: r =>
    if c = ',' then ([], Sep.comma, r)
    else if c = '\r' then
      match r with
      | '\n' :: r2 => ([], Sep.eol, r2)
      | _ => ([], Sep.eol, r)
    else if c = '\n' then ([], Sep.eol, r)
    else
      let p := parseBare r
      (c :: p.1, p.2.1, p.2.2)

/-- Parse one field: a leading quote opens a quoted field whose body runs
to the matching quote; any trailing unquoted stretch (separator included)
is consumed by `parseBare`. -/
def parseField (input : Chars) : Chars × Sep × Chars :=
  match input with
  | [] => ([], Sep.eof, [])
  | c :: r =>
    if c = '"' then
      let q := parseQuotedBody r
      let p := parseBare q.2
      (q.1 ++ p.1, p.2.1, p.2.2)
    else parseBare (c :: r)

/-- Parse one record: fields separated by commas, ended by a line end or
end of input.  The explicit length guard makes termination structural in
the input length; the parser always consumes the separator it reports, so
the guard holds on every reachable input. -/
def parseRecord (input : Chars) : List Chars × Chars :=
  let p := parseField input
  match p.2.1 with
  | Sep.comma =>
    if h : p.2.2.length < input.length then
      let q := parseRecord p.2.2
      (p.1 :: q.1, q.2)
    else ([p.1], p.2.2)
  | Sep.eol => ([p.1], p.2.2)
  | Sep.eof => ([p.1], p.2.2)
termination_by input.length
decreasing_by exact h

/-- Parse every record of the input. -/
def parseRecords (input : Chars) : List (List Chars) :=
  if hne : input = [] then []
  else
    let p := parseRecord input
    p.1 :: (if h : p.2.length < input.length then parseRecords p.2 else [])
termination_by input.length

/-- Separator text that follows a serialized field. -/
def sepTok : Sep → Chars
  | Sep.comma => [',']
  | Sep.eol => ['\r', '\n']
  | Sep.eof => []

/-! ## The record store (`ensure_csv` and the file operations)

The backing file is modelled as `Option Chars`: `none` when
`data/trees.csv` does not exist, `some text` for its byte content. -/

/-- Filesystem state of the backing CSV file. -/
abbrev FS := Option Chars

/-- The six column names, in the fixed order written by `ensure_csv`. -/
def headerFields : List Chars :=
  [chs "id", chs "lat", chs "lon", chs "species", chs "notes", chs "timestamp"]

/-- The header row text written on creation. -/
def headerText : Chars := writeRecord headerFields

/-- `ensure_csv`: create the file with the header row if it does not
exist, otherwise leave it untouched. -/
def ensure_csv (fs : FS) : FS :=
  match fs with
  | none => some headerText
  | some c => some c

/-- The append performed by the POST handler: `ensure_csv`, then open in
append mode and write one record at the end. -/
def appendRow (fs : FS) (row : List Chars) : FS :=
  match ensure_csv fs with
  | some c => some (c ++ writeRecord row)
  | none => none

/-- `csv.DictReader`: the first record of the file gives the field names;
every following record becomes a mapping from field name to the parsed
string value, in field-name order. -/
def dictReadAll (text : Chars) : List (List (Chars × Chars)) :=
  match parseRecords text with
  | [] => []
  | header :: rows => rows.map (fun r => header.zip r)

/-! ## JSON values and Python coercions -/

/-- A decoded JSON value, as produced by `json.loads`. -/
inductive Json where
  | null
  | bool (b : Bool)
  | num (q : ℚ)
  | str (s : Chars)
  | arr (xs : List Json)
  | obj (kvs : List (Chars × Json))

/-- Is the value a JSON object? -/
def Json.isObj : Json → Bool
  | Json.obj _ => true
  | _ => false

/-- Python `dict.get(key, default)` on a decoded JSON object;
`json.loads` keeps the last occurrence of a duplicated key. -/
def dictGet (kvs : List (Chars × Json)) (k : Chars) (d : Json) : Json :=
  match kvs.reverse.find? (fun p => p.1 == k) with
  | some p => p.2
  | none => d

/-- Digits read from the front of the input. -/
def takeDigits : Chars → Chars × Chars
  | [] => ([], [])
  | c :: r =>
    if c.isDigit then
      let p := takeDigits r
      (c :: p.1, p.2)
    else ([], c :: r)

/-- Numeric value of a digit string. -/
def natOfDigits (ds : Chars) : Nat :=
  ds.foldl (fun acc c => acc * 10 + (c.toNat - '0'.toNat)) 0

/-- Whitespace stripped by Python `float(str)`. -/
def isPyWs (c : Char) : Bool :=
  c == ' ' || c == '\t' || c == '\n' || c == '\r' || c == '\x0b' || c == '\x0c'

/-- Mantissa of a float literal: digits with an optional fractional part;
at least one digit must be present on one side of the point. -/
def parseUnsigned (cs : Chars) : Option (ℚ × Chars) :=
  let p := takeDigits cs
  match p.2 with
  | '.' :: r2 =>
    let q := takeDigits r2
    if p.1 = [] ∧ q.1 = [] then none
    else some ((natOfDigits p.1 : ℚ) + (natOfDigits q.1 : ℚ) / ((10 : ℚ) ^ q.1.length), q.2)
  | _ => if p.1 = [] then none else some ((natOfDigits p.1 : ℚ), p.2)

/-- Optional exponent part after the mantissa (`e`/`E`, optional sign,
digits). -/
def parseExpPart (m : ℚ) (cs : Chars) : Option ℚ :=
  match cs with
  | [] => some m
  | e :: r =>
    if e = 'e' ∨ e = 'E' then
      let sr : (ℤ × Chars) :=
        match r with
        | '-' :: r2 => (-1, r2)
        | '+' :: r2 => (1, r2)
        | _ => (1, r)
      let d := takeDigits sr.2
      if d.1 = [] ∨ d.2 ≠ [] then none
      else some (m * (10 : ℚ) ^ (sr.1 * (natOfDigits d.1 : ℤ)))
    else none

/-- Python `float(str)` on the forms exercised here: optional
whitespace, optional sign, decimal mantissa, optional exponent.
Modelled without the `inf`/`nan`/underscore spellings, which no claim
exercises. -/
def parsePyFloat (cs0 : Chars) : Option ℚ :=
  let cs1 := (cs0.dropWhile isPyWs).reverse.dropWhile isPyWs |>.reverse
  let sc : (ℚ × Chars) :=
    match cs1 with
    | '-' :: r => (-1, r)
    | '+' :: r => (1, r)
    | _ => (1, cs1)
  match parseUnsigned sc.2 with
  | none => none
  | some m => (parseExpPart m.1 m.2).map (fun q => sc.1 * q)

/-- Python `float(x)` on a decoded JSON value: numbers and booleans
coerce, numeric strings parse, `None`/lists/objects raise
`TypeError`, non-numeric strings raise `ValueError` (both caught by the
handler). Python floats are idealized as exact rationals. -/
def pyFloat : Json → Option ℚ
  | Json.null => none
  | Json.bool b => some (if b then 1 else 0)
  | Json.num q => some q
  | Json.str s => parsePyFloat s
  | Json.arr _ => none
  | Json.obj _ => none

/-! ## Python renderings used by `csv.writer` and the ID scheme -/

/-- Decimal digits of a natural number (fuel-structured so the kernel
can evaluate it). -/
def natDigits : Nat → Nat → Chars
  | 0, _ => []
  | fuel + 1, n =>
    if n < 10 then [Nat.digitChar n]
    else natDigits fuel (n / 10) ++ [Nat.digitChar (n % 10)]

/-- Python `str` of a natural number. -/
def natChars (n : Nat) : Chars := natDigits (n + 1) n

/-- Python `str` of an integer. -/
def intChars (i : ℤ) : Chars :=
  if i < 0 then '-' :: natChars (-i).toNat else natChars i.toNat

/-- Python `int(x)` on a float: truncation toward zero. -/
def pyInt (q : ℚ) : ℤ := Int.tdiv q.num (q.den : ℤ)

/-- Decimal digits of the fractional part (in `[0,1)`), up to the given
number of places, stopping at an exact zero tail. -/
def fracDigits : Nat → ℚ → Chars
  | 0, _ => []
  | n + 1, q =>
    if q = 0 then []
    else Nat.digitChar (⌊q * 10⌋).toNat :: fracDigits n (q * 10 - (⌊q * 10⌋ : ℚ))

/-- Python `str(float)` for the finite-decimal values that arise here:
sign, integer part, point, fractional digits (`.0` when integral).
Values needing scientific notation are not exercised by any claim. -/
def floatChars (q : ℚ) : Chars :=
  (if q < 0 then ['-'] else []) ++
    intChars ⌊|q|⌋ ++ '.' ::
      (let ds := fracDigits 17 (|q| - (⌊|q|⌋ : ℚ))
       if ds = [] then ['0'] else ds)

/-- Python `str()` as applied by `csv.writer` to a cell value decoded
from JSON: strings pass through verbatim, the scalar constants use
Python's spellings, numbers use the integer or float rendering.
Containers are rendered only approximately; no claim exercises them. -/
def pyStrChars : Json → Chars
  | Json.str s => s
  | Json.null => chs "None"
  | Json.bool true => chs "True"
  | Json.bool false => chs "False"
  | Json.num q => if q.den = 1 then intChars q.num else floatChars q
  | Json.arr _ => chs "[...]"
  | Json.obj _ => chs "dict"

/-! ## HTTP layer (`RequestHandler`) -/

/-- An HTTP response as produced by `send_json`. -/
structure Response where
  status : Nat
  contentType : Chars
  body : Json

/-- Result of running the POST handler: a response written by
`send_json`, or an uncaught Python exception (no response written). -/
inductive Outcome where
  | response (r : Response)
  | exception

/-- `send_json(data, status)`. -/
def sendJson (data : Json) (status : Nat) : Response :=
  ⟨status, chs "application/json", data⟩

/-- `handle_get_trees`: `ensure_csv()`, read every row with
`csv.DictReader`, respond `200` with the rows as a JSON array of string
objects. -/
def handle_get_trees (fs : FS) : Response × FS :=
  let fs2 := ensure_csv fs
  let trees := dictReadAll (fs2.getD [])
  (sendJson
    (Json.arr (trees.map (fun o => Json.obj (o.map (fun p => (p.1, Json.str p.2))))))
    200, fs2)

/-- `handle_post_tree` on a request whose body decoded as
`body : Option Json` (`none` when `json.loads` raised), with `t1` the
wall clock at the first `datetime.utcnow()` call (the id) and `t2` the
clock at the second call (the timestamp). -/
def handle_post_tree (body : Option Json) (t1 t2 : ℚ) (fs : FS) : Outcome × FS :=
  match body with
  | none =>
    (Outcome.response (sendJson (Json.obj [(chs "error", Json.str (chs "Invalid JSON"))]) 400), fs)
  | some data =>
    match data with
    | Json.obj kvs =>
      let latJ := dictGet kvs (chs "lat") Json.null
      let lonJ := dictGet kvs (chs "lon") Json.null
      let species := dictGet kvs (chs "species") (Json.str [])
      let notes := dictGet kvs (chs "notes") (Json.str [])
      match pyFloat latJ, pyFloat lonJ with
      | some lat, some lon =>
        let tree_id := pyInt (t1 * 1000)
        let timestamp := pyInt t2
        let row := [intChars tree_id, floatChars lat, floatChars lon,
                    pyStrChars species, pyStrChars notes, intChars timestamp]
        (Outcome.response (sendJson
          (Json.obj [(chs "status", Json.str (chs "success")),
                     (chs "id", Json.num (tree_id : ℚ))]) 201),
         appendRow fs row)
      | _, _ =>
        (Outcome.response (sendJson
          (Json.obj [(chs "error", Json.str (chs "lat and lon must be numeric"))]) 400), fs)
    | _ => (Outcome.exception, fs)

/-- POSIX `os.path.join` on two components: an absolute second component
discards the first. -/
def ospJoin (a b : Chars) : Chars :=
  if b.head? = some '/' then b
  else if a = [] then b
  else if a.getLast? = some '/' then a ++ b
  else a ++ '/' :: b

/-- Strip one leading `/` from the request path, as the handler does. -/
def stripSlash (path : Chars) : Chars :=
  if path.head? = some '/' then path.tail else path

/-- `translate_path` of the request handler, parametrized by the static
root directory; the input is the path component of the request URL. -/
def translate_path (root path : Chars) : Chars :=
  if path = chs "/" ∨ path = [] then ospJoin root (chs "index.html")
  else ospJoin root (stripSlash path)

/-- The filesystem effect `run_server` has before serving any request:
it calls `ensure_csv()` once at startup. -/
def runServerStartupFS (fs : FS) : FS := ensure_csv fs

/-! ## CSV round-trip lemmas -/

theorem needsQuote_cons {c : Char} {f : Chars} (h : needsQuote (c :: f) = false) :
    c ≠ ',' ∧ c ≠ '"' ∧ c ≠ '\n' ∧ c ≠ '\r' ∧ needsQuote f = false := by
  simp only [needsQuote, Bool.or_eq_false_iff, beq_eq_false_iff_ne] at h
  exact ⟨h.1.1.1.1, h.1.1.1.2, h.1.1.2, h.1.2, h.2⟩

theorem parseQuotedBody_rt (f rest : Chars) (h : rest.head? ≠ some '"') :
    parseQuotedBody (escapeQuotes f ++ '"' :: rest) = (f, rest) := by
  induction f with
  | nil =>
    cases rest with
    | nil => simp [escapeQuotes, parseQuotedBody]
    | cons c2 r2 =>
      have hc2 : ¬(c2 = '"') := by
        intro hc
        exact h (by rw [hc]; rfl)
      simp [escapeQuotes, parseQuotedBody, hc2]
  | cons c f ih =>
    by_cases hc : c = '"'
    · subst hc
      simp [escapeQuotes, parseQuotedBody, ih]
    · simp only [escapeQuotes, if_neg hc, List.cons_append]
      rw [parseQuotedBody.eq_def]
      simp [hc, ih]

theorem parseBare_comma (f rest : Chars) (h : needsQuote f = false) :
    parseBare (f ++ ',' :: rest) = (f, Sep.comma, rest) := by
  induction f with
  | nil => simp [parseBare]
  | cons c f ih =>
    obtain ⟨h1, _, h3, h4, h5⟩ := needsQuote_cons h
    simp [parseBare, h1, h3, h4, ih h5]

theorem parseBare_eol (f rest : Chars) (h : needsQuote f = false) :
    parseBare (f ++ '\r' :: '\n' :: rest) = (f, Sep.eol, rest) := by
  induction f with
  | nil => simp [parseBare]
  | cons c f ih =>
    obtain ⟨h1, _, h3, h4, h5⟩ := needsQuote_cons h
    simp [parseBare, h1, h3, h4, ih h5]

theorem parseBare_eof (f : Chars) (h : needsQuote f = false) :
    parseBare f = (f, Sep.eof, []) := by
  induction f with
  | nil => simp [parseBare]
  | cons c f ih =>
    obtain ⟨h1, _, h3, h4, h5⟩ := needsQuote_cons h
    simp [parseBare, h1, h3, h4, ih h5]

theorem parseBare_rt (f rest : Chars) (s : Sep) (hf : needsQuote f = false)
    (hs : s = Sep.eof → rest = []) :
    parseBare (f ++ (sepTok s ++ rest)) = (f, s, rest) := by
  cases s with
  | comma => simpa [sepTok] using parseBare_comma f rest hf
  | eol => simpa [sepTok] using parseBare_eol f rest hf
  | eof => rw [hs rfl]; simpa [sepTok] using parseBare_eof f hf

theorem sepTok_head (s : Sep) (rest : Chars) (hs : s = Sep.eof → rest = []) :
    (sepTok s ++ rest).head? ≠ some '"' := by
  cases s with
  | comma => simp [sepTok]
  | eol => simp [sepTok]
  | eof => rw [hs rfl]; simp [sepTok]

theorem parseField_rt (f rest : Chars) (s : Sep) (hs : s = Sep.eof → rest = []) :
    parseField (quoteField f ++ (sepTok s ++ rest)) = (f, s, rest) := by
  by_cases hq : needsQuote f = true
  · have hqf : quoteField f = '"' :: (escapeQuotes f ++ ['"']) := by
      simp [quoteField, hq]
    rw [hqf]
    have hbody : escapeQuotes f ++ ['"'] ++ (sepTok s ++ rest)
        = escapeQuotes f ++ '"' :: (sepTok s ++ rest) := by simp
    have hb := parseBare_rt [] rest s rfl hs
    simp only [List.nil_append] at hb
    simp [parseField, hbody, parseQuotedBody_rt f _ (sepTok_head s rest hs), hb]
  · have hq' : needsQuote f = false := by simpa using hq
    have hqf : quoteField f = f := by simp [quoteField, hq']
    rw [hqf]
    cases f with
    | nil =>
      simp only [List.nil_append]
      have := parseBare_rt [] rest s rfl hs
      simp only [List.nil_append] at this
      cases s with
      | comma => simpa [parseField, sepTok] using this
      | eol => simpa [parseField, sepTok] using this
      | eof => rw [hs rfl] at this ⊢; simpa [parseField, sepTok] using this
    | cons c f' =>
      obtain ⟨_, h2, _, _, _⟩ := needsQuote_cons hq'
      have := parseBare_rt (c :: f') rest s hq' hs
      simpa [parseField, h2] using this

theorem parseRecord_rt (fs : List Chars) (rest : Chars) (h : fs ≠ []) :
    parseRecord (joinFields fs ++ '\r' :: '\n' :: rest) = (fs, rest) := by
  induction fs with
  | nil => exact absurd rfl h
  | cons f fs ih =>
    cases fs with
    | nil =>
      have hp : parseField (quoteField f ++ (sepTok Sep.eol ++ rest)) = (f, Sep.eol, rest) :=
        parseField_rt f rest Sep.eol (by intro hc; cases hc)
      simp only [sepTok, List.cons_append, List.singleton_append, List.nil_append] at hp
      rw [parseRecord]
      simp only [joinFields]
      simp [hp]
    | cons f2 fs2 =>
      have hp : parseField (quoteField f ++ (sepTok Sep.comma ++
          (joinFields (f2 :: fs2) ++ '\r' :: '\n' :: rest)))
          = (f, Sep.comma, joinFields (f2 :: fs2) ++ '\r' :: '\n' :: rest) :=
        parseField_rt f _ Sep.comma (by intro hc; cases hc)
      simp only [sepTok, List.cons_append, List.singleton_append, List.nil_append] at hp
      have harr : joinFields (f :: f2 :: fs2) ++ '\r' :: '\n' :: rest
          = quoteField f ++ ',' :: (joinFields (f2 :: fs2) ++ '\r' :: '\n' :: rest) := by
        simp [joinFields]
      rw [harr, parseRecord]
      simp only [hp]
      have hlt : (joinFields (f2 :: fs2) ++ '\r' :: '\n' :: rest).length
          < (quoteField f ++ ',' :: (joinFields (f2 :: fs2) ++ '\r' :: '\n' :: rest)).length := by
        simp only [List.length_append, List.length_cons]
        omega
      simp only [dif_pos hlt, ih (by simp)]

theorem parseRecords_writeAll (rows : List (List Chars)) (h : ∀ r ∈ rows, r ≠ []) :
    parseRecords (writeAll rows) = rows := by
  induction rows with
  | nil => simp [writeAll, parseRecords]
  | cons r rs ih =>
    have hr : r ≠ [] := h r (by simp)
    have hrec : parseRecord (joinFields r ++ '\r' :: '\n' :: writeAll rs)
        = (r, writeAll rs) := parseRecord_rt r (writeAll rs) hr
    have harr : writeAll (r :: rs) = joinFields r ++ '\r' :: '\n' :: writeAll rs := by
      simp [writeAll, writeRecord]
    have hne : joinFields r ++ '\r' :: '\n' :: writeAll rs ≠ [] := by simp
    rw [harr, parseRecords]
    simp only [dif_neg hne, hrec]
    have hlt : (writeAll rs).length < (joinFields r ++ '\r' :: '\n' :: writeAll rs).length := by
      simp only [List.length_append, List.length_cons]
      omega
    simp only [dif_pos hlt, ih (fun x hx => h x (by simp [hx]))]

theorem dictReadAll_file (rows : List (List Chars)) (h : ∀ r ∈ rows, r ≠ []) :
    dictReadAll (headerText ++ writeAll rows) = rows.map (fun r => headerFields.zip r) := by
  have hall : parseRecords (writeAll (headerFields :: rows)) = headerFields :: rows := by
    refine parseRecords_writeAll _ ?_
    intro r hr
    rw [List.mem_cons] at hr
    rcases hr with hr | hr
    · subst hr
      simp [headerFields]
    · exact h r hr
  have htext : headerText ++ writeAll rows = writeAll (headerFields :: rows) := by
    simp [writeAll, headerText]
  rw [dictReadAll, htext, hall]

/-! ## Helper lemmas about the store and the handlers -/

theorem appendRow_eq (fs : FS) (row : List Chars) :
    appendRow fs row = some ((ensure_csv fs).getD [] ++ writeRecord row) := by
  cases fs <;> rfl

theorem handle_post_tree_success (kvs : List (Chars × Json)) (t1 t2 : ℚ) (fs : FS)
    (la lo : ℚ)
    (hla : pyFloat (dictGet kvs (chs "lat") Json.null) = some la)
    (hlo : pyFloat (dictGet kvs (chs "lon") Json.null) = some lo) :
    handle_post_tree (some (Json.obj kvs)) t1 t2 fs =
      (Outcome.response (sendJson (Json.obj [(chs "status", Json.str (chs "success")),
          (chs "id", Json.num ((pyInt (t1 * 1000) : ℤ) : ℚ))]) 201),
       some ((ensure_csv fs).getD [] ++ writeRecord
         [intChars (pyInt (t1 * 1000)), floatChars la, floatChars lo,
          pyStrChars (dictGet kvs (chs "species") (Json.str [])),
          pyStrChars (dictGet kvs (chs "notes") (Json.str [])),
          intChars (pyInt t2)])) := by
  simp only [handle_post_tree, hla, hlo, appendRow_eq]

/-- Python `int()` agrees with the floor on nonnegative values. -/
theorem pyInt_eq_floor (q : ℚ) (h : 0 ≤ q) : pyInt q = ⌊q⌋ := by
  rw [pyInt, Rat.floor_def]
  exact Int.tdiv_eq_ediv (Rat.num_nonneg.mpr h) (by positivity)

/-- Two id assignments at least a millisecond apart give strictly
increasing ids. -/
theorem pyInt_id_lt (tp t1 : ℚ) (h0 : 0 ≤ tp) (h : tp + 1 / 1000 ≤ t1) :
    pyInt (tp * 1000) < pyInt (t1 * 1000) := by
  have h0' : (0 : ℚ) ≤ tp * 1000 := by positivity
  have ht1 : (0 : ℚ) ≤ t1 := by linarith
  have h1' : (0 : ℚ) ≤ t1 * 1000 := by positivity
  rw [pyInt_eq_floor _ h0', pyInt_eq_floor _ h1']
  have hle : tp * 1000 + 1 ≤ t1 * 1000 := by nlinarith
  calc ⌊tp * 1000⌋ < ⌊tp * 1000⌋ + 1 := by omega
    _ = ⌊tp * 1000 + 1⌋ := (Int.floor_add_one _).symm
    _ ≤ ⌊t1 * 1000⌋ := Int.floor_mono hle

/-- Integer-dividing the millisecond floor by 1000 recovers the second
floor. -/
theorem floor_thousand_div (t : ℚ) : ⌊((⌊t * 1000⌋ : ℚ) / 1000)⌋ = ⌊t⌋ := by
  have hcast : ((1000 : ℚ)) = ((1000 : ℕ) : ℚ) := by norm_num
  rw [hcast, Rat.floor_intCast_div_natCast]
  have h1 : ((⌊t⌋ : ℚ)) ≤ t := Int.floor_le t
  have h2 : t < ⌊t⌋ + 1 := Int.lt_floor_add_one t
  have h5 : (1000 : ℤ) * ⌊t⌋ ≤ ⌊t * 1000⌋ := by
    refine Int.le_floor.mpr ?_
    push_cast
    nlinarith
  have h6 : ⌊t * 1000⌋ < 1000 * ⌊t⌋ + 1000 := by
    refine Int.floor_lt.mpr ?_
    push_cast
    nlinarith
  push_cast
  omega

theorem writeAll_append (a b : List (List Chars)) :
    writeAll (a ++ b) = writeAll a ++ writeAll b := by
  induction a with
  | nil => simp [writeAll]
  | cons r rs ih => simp [writeAll, ih]

/-! ## The claims -/

/-- C1: a POST whose body is a JSON object with numeric-coercible `lat`
and `lon` responds `201` with `{"status": "success", "id": <id>}` and
appends exactly one row to the backing file; the row has exactly six
fields in the order id, lat, lon, species, notes, timestamp, and its
first (id) field is the rendering of the id in the response. -/
theorem c1_post_valid_appends_one_row (kvs : List (Chars × Json)) (t1 t2 : ℚ)
    (fs : FS) (la lo : ℚ)
    (hla : pyFloat (dictGet kvs (chs "lat") Json.null) = some la)
    (hlo : pyFloat (dictGet kvs (chs "lon") Json.null) = some lo) :
    ∃ row : List Chars,
      handle_post_tree (some (Json.obj kvs)) t1 t2 fs =
        (Outcome.response ⟨201, chs "application/json",
            Json.obj [(chs "status", Json.str (chs "success")),
                      (chs "id", Json.num ((pyInt (t1 * 1000) : ℤ) : ℚ))]⟩,
         some ((ensure_csv fs).getD [] ++ writeRecord row))
      ∧ row = [intChars (pyInt (t1 * 1000)), floatChars la, floatChars lo,
               pyStrChars (dictGet kvs (chs "species") (Json.str [])),
               pyStrChars (dictGet kvs (chs "notes") (Json.str [])),
               intChars (pyInt t2)]
      ∧ row.length = 6
      ∧ row.head? = some (intChars (pyInt (t1 * 1000))) := by
  exact ⟨_, handle_post_tree_success kvs t1 t2 fs la lo hla hlo, rfl, rfl, rfl⟩

theorem c1_witness :
    pyFloat (dictGet [(chs "lat", Json.num 1), (chs "lon", Json.num 2)]
        (chs "lat") Json.null) = some 1
    ∧ pyFloat (dictGet [(chs "lat", Json.num 1), (chs "lon", Json.num 2)]
        (chs "lon") Json.null) = some 2
    ∧ ∃ row : List Chars,
      handle_post_tree (some (Json.obj [(chs "lat", Json.num 1), (chs "lon", Json.num 2)]))
          0 0 none =
        (Outcome.response ⟨201, chs "application/json",
            Json.obj [(chs "status", Json.str (chs "success")),
                      (chs "id", Json.num ((pyInt ((0 : ℚ) * 1000) : ℤ) : ℚ))]⟩,
         some ((ensure_csv none).getD [] ++ writeRecord row))
      ∧ row = [intChars (pyInt ((0 : ℚ) * 1000)), floatChars 1, floatChars 2,
               pyStrChars (dictGet [(chs "lat", Json.num 1), (chs "lon", Json.num 2)]
                 (chs "species") (Json.str [])),
               pyStrChars (dictGet [(chs "lat", Json.num 1), (chs "lon", Json.num 2)]
                 (chs "notes") (Json.str [])),
               intChars (pyInt 0)]
      ∧ row.length = 6
      ∧ row.head? = some (intChars (pyInt ((0 : ℚ) * 1000))) :=
  ⟨rfl, rfl, c1_post_valid_appends_one_row _ 0 0 none 1 2 rfl rfl⟩

/-- C3: a POST whose body is a JSON object in which `lat` or `lon` is
missing or not float-coercible responds `400` with
`{"error": "lat and lon must be numeric"}` and leaves the file
unchanged. -/
theorem c3_post_nonnumeric_400 (kvs : List (Chars × Json)) (t1 t2 : ℚ) (fs : FS)
    (h : pyFloat (dictGet kvs (chs "lat") Json.null) = none ∨
         pyFloat (dictGet kvs (chs "lon") Json.null) = none) :
    handle_post_tree (some (Json.obj kvs)) t1 t2 fs =
      (Outcome.response ⟨400, chs "application/json",
        Json.obj [(chs "error", Json.str (chs "lat and lon must be numeric"))]⟩, fs) := by
  rcases h with h | h
  · simp [handle_post_tree, h, sendJson]
  · cases hl : pyFloat (dictGet kvs (chs "lat") Json.null) <;>
      simp [handle_post_tree, hl, h, sendJson]

theorem c3_witness :
    (pyFloat (dictGet [(chs "lat", Json.str (chs "abc")), (chs "lon", Json.num 1)]
        (chs "lat") Json.null) = none ∨
     pyFloat (dictGet [(chs "lat", Json.str (chs "abc")), (chs "lon", Json.num 1)]
        (chs "lon") Json.null) = none)
    ∧ handle_post_tree
        (some (Json.obj [(chs "lat", Json.str (chs "abc")), (chs "lon", Json.num 1)]))
        3 3 (some headerText) =
      (Outcome.response ⟨400, chs "application/json",
        Json.obj [(chs "error", Json.str (chs "lat and lon must be numeric"))]⟩,
       some headerText) :=
  ⟨Or.inl rfl, c3_post_nonnumeric_400 _ 3 3 (some headerText) (Or.inl rfl)⟩

/-- C4: a POST whose body fails to parse as JSON responds `400` with
`{"error": "Invalid JSON"}` and leaves the file unchanged. -/
theorem c4_post_invalid_json_400 (t1 t2 : ℚ) (fs : FS) :
    handle_post_tree none t1 t2 fs =
      (Outcome.response ⟨400, chs "application/json",
        Json.obj [(chs "error", Json.str (chs "Invalid JSON"))]⟩, fs) := rfl

/-- C7: the backing file's first line is the header once created, and
every operation preserves this: `ensure_csv` on an existing file is the
identity, creation writes exactly the header, appends only add one record
after the existing content (so a leading header stays in place), and the
GET handler does not change an existing file. -/
theorem c7_header_invariant :
    (∀ c, ensure_csv (some c) = some c)
    ∧ ensure_csv none = some headerText
    ∧ (∀ c row, appendRow (some c) row = some (c ++ writeRecord row))
    ∧ (∀ c, (handle_get_trees (some c)).2 = some c)
    ∧ (∀ rest row, appendRow (some (headerText ++ rest)) row
        = some (headerText ++ (rest ++ writeRecord row))) := by
  refine ⟨fun c => rfl, rfl, fun c row => rfl, fun c => rfl, fun rest row => ?_⟩
  simp [appendRow, ensure_csv]

/-- C10: a POST whose body is valid JSON but not an object hits an
attribute error when the handler calls `.get` on the parsed value: the
outcome is an uncaught exception, none of the JSON responses is
produced, and no row is appended. -/
theorem c10_post_nonobject_exception (j : Json) (h : j.isObj = false)
    (t1 t2 : ℚ) (fs : FS) :
    handle_post_tree (some j) t1 t2 fs = (Outcome.exception, fs) := by
  cases j <;> simp_all [Json.isObj, handle_post_tree]

theorem c10_witness :
    (Json.arr []).isObj = false
    ∧ handle_post_tree (some (Json.arr [])) 3 3 (some headerText)
        = (Outcome.exception, some headerText) :=
  ⟨rfl, c10_post_nonobject_exception (Json.arr []) rfl 3 3 (some headerText)⟩

/-- C5: on a file made of the header plus `n` well-formed six-field
rows, GET responds `200` with content type `application/json` and a JSON
array of exactly `n` objects in file order, each keyed by the six column
names with the string values parsed from the file; the array is empty
when only the header exists, and the file is not modified. -/
theorem c5_get_reads_file (rows : List (List Chars))
    (h6 : ∀ r ∈ rows, r.length = 6) :
    handle_get_trees (some (headerText ++ writeAll rows)) =
      (⟨200, chs "application/json",
        Json.arr (rows.map (fun r => Json.obj ((headerFields.zip r).map
          (fun p => (p.1, Json.str p.2)))))⟩,
       some (headerText ++ writeAll rows))
    ∧ (rows.map (fun r => Json.obj ((headerFields.zip r).map
        (fun p => (p.1, Json.str p.2))))).length = rows.length := by
  constructor
  · have hne : ∀ r ∈ rows, r ≠ [] := by
      intro r hr h0
      have := h6 r hr
      rw [h0] at this
      simp at this
    simp [handle_get_trees, ensure_csv, dictReadAll_file rows hne, sendJson]
  · simp

theorem c5_witness :
    (∀ r ∈ ([] : List (List Chars)), r.length = 6)
    ∧ (handle_get_trees (some (headerText ++ writeAll [])) =
        (⟨200, chs "application/json",
          Json.arr (([] : List (List Chars)).map (fun r =>
            Json.obj ((headerFields.zip r).map (fun p => (p.1, Json.str p.2)))))⟩,
         some (headerText ++ writeAll []))
      ∧ (([] : List (List Chars)).map (fun r => Json.obj ((headerFields.zip r).map
          (fun p => (p.1, Json.str p.2))))).length = ([] : List (List Chars)).length) :=
  ⟨by simp, c5_get_reads_file [] (by simp)⟩

/-- C6: after a valid POST (numeric `lat`/`lon`, string `species` and
`notes`, which may contain commas, quotes or newlines and are then
CSV-quoted), a GET returns the previous rows followed by a row holding
the same species and notes strings verbatim and the serialized `lat` and
`lon`; and any insert at least one millisecond earlier got a strictly
smaller id. -/
theorem c6_post_then_get_includes_row (rows0 : List (List Chars))
    (kvs : List (Chars × Json)) (t1 t2 : ℚ) (sp no : Chars) (la lo : ℚ)
    (h6 : ∀ r ∈ rows0, r.length = 6)
    (hla : pyFloat (dictGet kvs (chs "lat") Json.null) = some la)
    (hlo : pyFloat (dictGet kvs (chs "lon") Json.null) = some lo)
    (hsp : dictGet kvs (chs "species") (Json.str []) = Json.str sp)
    (hno : dictGet kvs (chs "notes") (Json.str []) = Json.str no) :
    (handle_get_trees (handle_post_tree (some (Json.obj kvs)) t1 t2
        (some (headerText ++ writeAll rows0))).2).1.body
      = Json.arr ((rows0 ++ [[intChars (pyInt (t1 * 1000)), floatChars la, floatChars lo,
          sp, no, intChars (pyInt t2)]]).map
          (fun r => Json.obj ((headerFields.zip r).map (fun p => (p.1, Json.str p.2)))))
    ∧ (∀ tp : ℚ, 0 ≤ tp → tp + 1 / 1000 ≤ t1 →
        pyInt (tp * 1000) < pyInt (t1 * 1000)) := by
  constructor
  · have hpost := handle_post_tree_success kvs t1 t2
      (some (headerText ++ writeAll rows0)) la lo hla hlo
    rw [hpost]
    have hne : ∀ r ∈ rows0 ++ [[intChars (pyInt (t1 * 1000)), floatChars la,
        floatChars lo, sp, no, intChars (pyInt t2)]], r ≠ [] := by
      intro r hr
      rw [List.mem_append] at hr
      rcases hr with hr | hr
      · intro h0
        have := h6 r hr
        rw [h0] at this
        simp at this
      · rw [List.mem_singleton] at hr
        subst hr
        simp
    have hfile : (ensure_csv (some (headerText ++ writeAll rows0))).getD []
          ++ writeRecord [intChars (pyInt (t1 * 1000)), floatChars la, floatChars lo,
              pyStrChars (dictGet kvs (chs "species") (Json.str [])),
              pyStrChars (dictGet kvs (chs "notes") (Json.str [])),
              intChars (pyInt t2)]
        = headerText ++ writeAll (rows0 ++ [[intChars (pyInt (t1 * 1000)),
            floatChars la, floatChars lo, sp, no, intChars (pyInt t2)]]) := by
      rw [hsp, hno]
      simp [ensure_csv, writeAll_append, writeAll, pyStrChars]
    rw [hfile]
    simp [handle_get_trees, ensure_csv, dictReadAll_file _ hne, sendJson]
  · intro tp h0 hms
    exact pyInt_id_lt tp t1 h0 hms

theorem c6_witness :
    (∀ r ∈ ([] : List (List Chars)), r.length = 6)
    ∧ pyFloat (dictGet [(chs "lat", Json.num 1), (chs "lon", Json.num 2),
        (chs "species", Json.str (chs "a,\"b\"\nc")), (chs "notes", Json.str (chs "n"))]
        (chs "lat") Json.null) = some 1
    ∧ pyFloat (dictGet [(chs "lat", Json.num 1), (chs "lon", Json.num 2),
        (chs "species", Json.str (chs "a,\"b\"\nc")), (chs "notes", Json.str (chs "n"))]
        (chs "lon") Json.null) = some 2
    ∧ dictGet [(chs "lat", Json.num 1), (chs "lon", Json.num 2),
        (chs "species", Json.str (chs "a,\"b\"\nc")), (chs "notes", Json.str (chs "n"))]
        (chs "species") (Json.str []) = Json.str (chs "a,\"b\"\nc")
    ∧ dictGet [(chs "lat", Json.num 1), (chs "lon", Json.num 2),
        (chs "species", Json.str (chs "a,\"b\"\nc")), (chs "notes", Json.str (chs "n"))]
        (chs "notes") (Json.str []) = Json.str (chs "n")
    ∧ ((handle_get_trees (handle_post_tree
          (some (Json.obj [(chs "lat", Json.num 1), (chs "lon", Json.num 2),
            (chs "species", Json.str (chs "a,\"b\"\nc")),
            (chs "notes", Json.str (chs "n"))])) 2 2
          (some (headerText ++ writeAll []))).2).1.body
        = Json.arr ((([] : List (List Chars)) ++ [[intChars (pyInt ((2 : ℚ) * 1000)),
            floatChars 1, floatChars 2, chs "a,\"b\"\nc", chs "n",
            intChars (pyInt 2)]]).map
            (fun r => Json.obj ((headerFields.zip r).map (fun p => (p.1, Json.str p.2)))))
      ∧ (∀ tp : ℚ, 0 ≤ tp → tp + 1 / 1000 ≤ 2 →
          pyInt (tp * 1000) < pyInt ((2 : ℚ) * 1000))) :=
  ⟨by simp, rfl, rfl, rfl, rfl,
   c6_post_then_get_includes_row [] _ 2 2 (chs "a,\"b\"\nc") (chs "n") 1 2
     (by simp) rfl rfl rfl rfl⟩

/-- C8 counterexample: with the store file absent, `run_server` already
creates it (with the header row) at startup, before any read or write
request is handled — creation is not lazy. -/
theorem c8_counterexample :
    runServerStartupFS none = some headerText
    ∧ runServerStartupFS none ≠ none := by
  refine ⟨rfl, ?_⟩
  intro h
  simp [runServerStartupFS, ensure_csv] at h

/-- C8 amended: the store file, when absent, is created with exactly the
header row at server startup (`run_server` calls `ensure_csv` before
serving), and also inside the GET handler and inside a successful POST
append; an existing file is left alone at startup. -/
theorem c8_amended_eager_creation :
    runServerStartupFS none = some headerText
    ∧ (∀ c, runServerStartupFS (some c) = some c)
    ∧ (handle_get_trees none).2 = some headerText
    ∧ (∀ (kvs : List (Chars × Json)) (t1 t2 la lo : ℚ),
        pyFloat (dictGet kvs (chs "lat") Json.null) = some la →
        pyFloat (dictGet kvs (chs "lon") Json.null) = some lo →
        (handle_post_tree (some (Json.obj kvs)) t1 t2 none).2
          = some (headerText ++ writeRecord
              [intChars (pyInt (t1 * 1000)), floatChars la, floatChars lo,
               pyStrChars (dictGet kvs (chs "species") (Json.str [])),
               pyStrChars (dictGet kvs (chs "notes") (Json.str [])),
               intChars (pyInt t2)])) := by
  refine ⟨rfl, fun c => rfl, rfl, fun kvs t1 t2 la lo hla hlo => ?_⟩
  rw [handle_post_tree_success kvs t1 t2 none la lo hla hlo]
  rfl

theorem c8_witness :
    pyFloat (dictGet [(chs "lat", Json.num 1), (chs "lon", Json.num 2)]
        (chs "lat") Json.null) = some 1
    ∧ pyFloat (dictGet [(chs "lat", Json.num 1), (chs "lon", Json.num 2)]
        (chs "lon") Json.null) = some 2
    ∧ (handle_post_tree (some (Json.obj [(chs "lat", Json.num 1),
          (chs "lon", Json.num 2)])) 0 0 none).2
        = some (headerText ++ writeRecord
            [intChars (pyInt ((0 : ℚ) * 1000)), floatChars 1, floatChars 2,
             pyStrChars (dictGet [(chs "lat", Json.num 1), (chs "lon", Json.num 2)]
               (chs "species") (Json.str [])),
             pyStrChars (dictGet [(chs "lat", Json.num 1), (chs "lon", Json.num 2)]
               (chs "notes") (Json.str [])),
             intChars (pyInt 0)]) :=
  ⟨rfl, rfl, c8_amended_eager_creation.2.2.2 _ 0 0 1 2 rfl rfl⟩

/-- C9 counterexample: a request path with a second leading separator
resolves outside the static root: `translate_path` on `//etc/passwd`
yields `/etc/passwd`, which is not under the root `/srv/static`. -/
theorem c9_counterexample :
    translate_path (chs "/srv/static") (chs "//etc/passwd") = chs "/etc/passwd"
    ∧ ¬ ∃ t : Chars, chs "/etc/passwd" = chs "/srv/static" ++ t := by
  constructor
  · decide
  · rintro ⟨t, h⟩
    have h3 : chs "/srv/static" ++ t = chs "/s" ++ (chs "rv/static" ++ t) := by
      rw [(by decide : chs "/srv/static" = chs "/s" ++ chs "rv/static"),
        List.append_assoc]
    have h4 := congrArg (List.take 2) (h.trans h3)
    rw [List.take_left' (by decide : (chs "/s").length = 2)] at h4
    exact absurd h4 (by decide)

/-- C9 amended: path `/` or the empty path resolves to `index.html`
under the root; any other path is stripped of one leading separator and
joined to the root by plain path concatenation, with no containment
check or `..` normalization — the result stays under the root only when
the stripped remainder does not itself begin with a separator. -/
theorem c9_amended_no_containment_check (root path : Chars)
    (hr : root ≠ []) (hrs : root.getLast? ≠ some '/')
    (hp : ¬(path = chs "/" ∨ path = []))
    (hstrip : (stripSlash path).head? ≠ some '/') :
    translate_path root (chs "/") = root ++ chs "/index.html"
    ∧ translate_path root [] = root ++ chs "/index.html"
    ∧ translate_path root path = root ++ '/' :: stripSlash path
    ∧ ∃ t : Chars, translate_path root path = root ++ t := by
  have hjoin : ∀ b : Chars, b.head? ≠ some '/' → ospJoin root b = root ++ '/' :: b := by
    intro b hb
    simp [ospJoin, hb, hr, hrs]
  refine ⟨?_, ?_, ?_, ?_⟩
  · rw [translate_path, if_pos (Or.inl rfl), hjoin (chs "index.html") (by decide),
      (by decide : ('/' :: chs "index.html" : Chars) = chs "/index.html")]
  · rw [translate_path, if_pos (Or.inr rfl), hjoin (chs "index.html") (by decide),
      (by decide : ('/' :: chs "index.html" : Chars) = chs "/index.html")]
  · rw [translate_path, if_neg hp, hjoin _ hstrip]
  · exact ⟨'/' :: stripSlash path, by rw [translate_path, if_neg hp, hjoin _ hstrip]⟩

theorem c9_witness :
    (chs "/srv/static" : Chars) ≠ []
    ∧ (chs "/srv/static").getLast? ≠ some '/'
    ∧ ¬((chs "/js/app.js") = chs "/" ∨ (chs "/js/app.js") = ([] : Chars))
    ∧ (stripSlash (chs "/js/app.js")).head? ≠ some '/'
    ∧ (translate_path (chs "/srv/static") (chs "/") = chs "/srv/static" ++ chs "/index.html"
      ∧ translate_path (chs "/srv/static") [] = chs "/srv/static" ++ chs "/index.html"
      ∧ translate_path (chs "/srv/static") (chs "/js/app.js")
          = chs "/srv/static" ++ '/' :: stripSlash (chs "/js/app.js")
      ∧ ∃ t : Chars, translate_path (chs "/srv/static") (chs "/js/app.js")
          = chs "/srv/static" ++ t) :=
  ⟨by decide, by decide, by decide, by decide,
   c9_amended_no_containment_check (chs "/srv/static") (chs "/js/app.js")
     (by decide) (by decide) (by decide) (by decide)⟩

theorem fracDigits_zero (n : Nat) : fracDigits n 0 = [] := by
  cases n <;> simp [fracDigits]

theorem floatChars_one : floatChars 1 = chs "1.0" := by
  have h1 : |(1 : ℚ)| = 1 := abs_one
  have h2 : ⌊(1 : ℚ)⌋ = 1 := Int.floor_one
  rw [floatChars, if_neg (by norm_num), h1, h2,
    (by norm_num : (1 : ℚ) - ((1 : ℤ) : ℚ) = 0), fracDigits_zero]
  rfl

theorem floatChars_two : floatChars 2 = chs "2.0" := by
  have h1 : |(2 : ℚ)| = 2 := abs_of_nonneg (by norm_num)
  have h2 : ⌊(2 : ℚ)⌋ = 2 := by decide
  rw [floatChars, if_neg (by norm_num), h1, h2,
    (by norm_num : (2 : ℚ) - ((2 : ℤ) : ℚ) = 0), fracDigits_zero]
  rfl

theorem pyInt_nonpos (q : ℚ) (h : q ≤ 0) : pyInt q ≤ 0 := by
  have hn : q.num ≤ 0 := Rat.num_nonpos.mpr h
  rw [pyInt, (by omega : q.num = -(-q.num)), Int.neg_tdiv]
  have := Int.tdiv_nonneg (by omega : 0 ≤ -q.num) (by positivity : 0 ≤ (q.den : ℤ))
  omega

/-- C2 counterexample: the id and the timestamp come from two separate
`datetime.utcnow()` calls.  With the first read at 1000.999 s and the
second at 1001 s, a successful append responds with id 1000999 and
persists timestamp 1001 — values that no single wall-clock moment `t`
can produce as `int(t * 1000)` and `int(t)`, so `floor(id / 1000)` is
1000, not the persisted timestamp. -/
theorem c2_counterexample :
    (handle_post_tree (some (Json.obj [(chs "lat", Json.num 1), (chs "lon", Json.num 2)]))
        ((1000999 : ℚ) / 1000) 1001 (some headerText)).1
      = Outcome.response ⟨201, chs "application/json",
          Json.obj [(chs "status", Json.str (chs "success")),
                    (chs "id", Json.num 1000999)]⟩
    ∧ (handle_post_tree (some (Json.obj [(chs "lat", Json.num 1), (chs "lon", Json.num 2)]))
        ((1000999 : ℚ) / 1000) 1001 (some headerText)).2
      = some (headerText ++ writeRecord
          [chs "1000999", chs "1.0", chs "2.0", chs "", chs "", chs "1001"])
    ∧ ¬ ∃ t : ℚ, pyInt (t * 1000) = 1000999 ∧ pyInt t = 1001 := by
  have hs := handle_post_tree_success [(chs "lat", Json.num 1), (chs "lon", Json.num 2)]
    ((1000999 : ℚ) / 1000) 1001 (some headerText) 1 2 rfl rfl
  have hid : pyInt ((1000999 : ℚ) / 1000 * 1000) = 1000999 := by
    rw [(by norm_num : (1000999 : ℚ) / 1000 * 1000 = 1000999)]
    decide
  have hts : pyInt (1001 : ℚ) = 1001 := by decide
  rw [hid, hts] at hs
  have hcast : ((1000999 : ℤ) : ℚ) = (1000999 : ℚ) := by norm_num
  rw [hcast] at hs
  have hrow : ([intChars 1000999, floatChars 1, floatChars 2,
      pyStrChars (dictGet [(chs "lat", Json.num 1), (chs "lon", Json.num 2)]
        (chs "species") (Json.str [])),
      pyStrChars (dictGet [(chs "lat", Json.num 1), (chs "lon", Json.num 2)]
        (chs "notes") (Json.str [])),
      intChars 1001] : List Chars)
      = [chs "1000999", chs "1.0", chs "2.0", chs "", chs "", chs "1001"] := by
    rw [floatChars_one, floatChars_two]
    decide
  rw [hrow] at hs
  refine ⟨by rw [hs]; rfl, by rw [hs]; rfl, ?_⟩
  rintro ⟨t, h1, h2⟩
  by_cases h0 : 0 ≤ t
  · have e2 : pyInt t = ⌊t⌋ := pyInt_eq_floor t h0
    rw [e2] at h2
    have hge : (1001 : ℚ) ≤ t := by
      have := Int.le_floor.mp (le_of_eq h2.symm)
      exact_mod_cast this
    have e1 : pyInt (t * 1000) = ⌊t * 1000⌋ := pyInt_eq_floor _ (by positivity)
    rw [e1] at h1
    have : (1001000 : ℤ) ≤ ⌊t * 1000⌋ := by
      refine Int.le_floor.mpr ?_
      push_cast
      nlinarith
    omega
  · have : pyInt t ≤ 0 := pyInt_nonpos t (by linarith [not_le.mp h0])
    omega

/-- C2 amended: the assigned id is `int(t1 * 1000)` for the wall clock
`t1` at the first `utcnow()` call, and the persisted timestamp is
`int(t2)` for the clock `t2` at a second, later call; the relation
`floor(id / 1000) = timestamp` holds only when both reads fall inside
the same second. -/
theorem c2_amended_two_clock_reads (kvs : List (Chars × Json)) (t1 t2 : ℚ)
    (fs : FS) (la lo : ℚ) (h1 : 0 ≤ t1) (h2 : t1 ≤ t2)
    (hla : pyFloat (dictGet kvs (chs "lat") Json.null) = some la)
    (hlo : pyFloat (dictGet kvs (chs "lon") Json.null) = some lo) :
    (handle_post_tree (some (Json.obj kvs)) t1 t2 fs).1
      = Outcome.response ⟨201, chs "application/json",
          Json.obj [(chs "status", Json.str (chs "success")),
                    (chs "id", Json.num ((⌊t1 * 1000⌋ : ℤ) : ℚ))]⟩
    ∧ (handle_post_tree (some (Json.obj kvs)) t1 t2 fs).2
        = some ((ensure_csv fs).getD [] ++ writeRecord
            [intChars ⌊t1 * 1000⌋, floatChars la, floatChars lo,
             pyStrChars (dictGet kvs (chs "species") (Json.str [])),
             pyStrChars (dictGet kvs (chs "notes") (Json.str [])),
             intChars ⌊t2⌋])
    ∧ (⌊t1⌋ = ⌊t2⌋ → ⌊((⌊t1 * 1000⌋ : ℚ)) / 1000⌋ = ⌊t2⌋) := by
  have e1 : pyInt (t1 * 1000) = ⌊t1 * 1000⌋ := pyInt_eq_floor _ (by positivity)
  have e2 : pyInt t2 = ⌊t2⌋ := pyInt_eq_floor _ (le_trans h1 h2)
  have hs := handle_post_tree_success kvs t1 t2 fs la lo hla hlo
  rw [e1, e2] at hs
  refine ⟨by rw [hs]; rfl, by rw [hs], fun hf => ?_⟩
  rw [floor_thousand_div t1, hf]

theorem c2_witness :
    (0 : ℚ) ≤ 2
    ∧ (2 : ℚ) ≤ 2
    ∧ pyFloat (dictGet [(chs "lat", Json.num 1), (chs "lon", Json.num 2)]
        (chs "lat") Json.null) = some 1
    ∧ pyFloat (dictGet [(chs "lat", Json.num 1), (chs "lon", Json.num 2)]
        (chs "lon") Json.null) = some 2
    ∧ ((handle_post_tree (some (Json.obj [(chs "lat", Json.num 1), (chs "lon", Json.num 2)]))
          2 2 none).1
        = Outcome.response ⟨201, chs "application/json",
            Json.obj [(chs "status", Json.str (chs "success")),
                      (chs "id", Json.num ((⌊(2 : ℚ) * 1000⌋ : ℤ) : ℚ))]⟩
      ∧ (handle_post_tree (some (Json.obj [(chs "lat", Json.num 1), (chs "lon", Json.num 2)]))
            2 2 none).2
          = some ((ensure_csv none).getD [] ++ writeRecord
              [intChars ⌊(2 : ℚ) * 1000⌋, floatChars 1, floatChars 2,
               pyStrChars (dictGet [(chs "lat", Json.num 1), (chs "lon", Json.num 2)]
                 (chs "species") (Json.str [])),
               pyStrChars (dictGet [(chs "lat", Json.num 1), (chs "lon", Json.num 2)]
                 (chs "notes") (Json.str [])),
               intChars ⌊(2 : ℚ)⌋])
      ∧ (⌊(2 : ℚ)⌋ = ⌊(2 : ℚ)⌋ → ⌊((⌊(2 : ℚ) * 1000⌋ : ℚ)) / 1000⌋ = ⌊(2 : ℚ)⌋)) :=
  ⟨by norm_num, le_refl 2, rfl, rfl,
   c2_amended_two_clock_reads _ 2 2 none 1 2 (by norm_num) (le_refl 2) rfl rfl⟩

end TreeWalk
